/-
Verification of the lens-distortion shader pipeline in `src/script.js`.

The shader mathematics (fragment `main` of `App.getShader`) is embedded over
the real numbers: GLSL `vec2` becomes `Vec2`, the texture becomes an abstract
function from coordinates to colors, and the GLSL builtins `clamp`,
`smoothstep`, `distance`, `normalize`, `pow` are given their specified
real-valued definitions.  The per-frame state machine (`App.animate`,
`App.onMouseMove`) is embedded as pure state-transition functions on an
`AppState` record mirroring the fields of the `App` class.
-/
import Mathlib

noncomputable section

/-- A 2-component vector of reals, the embedding of GLSL `vec2` and
`THREE.Vector2`. -/
@[ext]
structure Vec2 where
  x : ℝ
  y : ℝ

namespace Vec2

/-- Componentwise subtraction, GLSL `a - b` on `vec2`. -/
def sub (a b : Vec2) : Vec2 := ⟨a.x - b.x, a.y - b.y⟩

/-- Componentwise multiplication, GLSL `a * b` on `vec2`. -/
def mul (a b : Vec2) : Vec2 := ⟨a.x * b.x, a.y * b.y⟩

/-- GLSL `length(v) = sqrt(v.x^2 + v.y^2)`. -/
def length (v : Vec2) : ℝ := Real.sqrt (v.x ^ 2 + v.y ^ 2)

/-- GLSL `distance(a, b) = length(a - b)`. -/
def distance (a b : Vec2) : ℝ := length (sub a b)

/-- GLSL `normalize(v) = v / length(v)` (componentwise division by the
Euclidean length). -/
def normalize (v : Vec2) : Vec2 := ⟨v.x / length v, v.y / length v⟩

/-- THREE's `Vector2.lerp(v, alpha)`: `this.x += (v.x - this.x) * alpha`, and
likewise for `y`; `script.js` line 220 calls it as
`this.mouse.lerp(this.targetMouse, 0.1)`. -/
def lerp (c v : Vec2) (alpha : ℝ) : Vec2 :=
  ⟨c.x + (v.x - c.x) * alpha, c.y + (v.y - c.y) * alpha⟩

end Vec2

/-- GLSL `clamp(x, lo, hi) = min(max(x, lo), hi)`. -/
def clamp (x lo hi : ℝ) : ℝ := min (max x lo) hi

/-- GLSL `smoothstep(e0, e1, x)`: `t = clamp((x-e0)/(e1-e0), 0, 1);
t*t*(3 - 2*t)`. -/
def smoothstep (e0 e1 x : ℝ) : ℝ :=
  let t := clamp ((x - e0) / (e1 - e0)) 0 1
  t * t * (3 - 2 * t)

/-- An RGBA color; the embedding of GLSL `vec4` used as a color. -/
@[ext]
structure Color where
  r : ℝ
  g : ℝ
  b : ℝ
  a : ℝ

/-- The shape of the `CONFIG` object of `script.js` lines 3-8. -/
structure Config where
  imagePath : String
  lensSize : ℝ
  lensBulge : ℝ
  aberrationStrength : ℝ

/-- The `CONFIG` object of `script.js` lines 3-8. -/
def CONFIG : Config :=
  { imagePath := "./images/background.jpg"
    lensSize := 0.4
    lensBulge := 0.5
    aberrationStrength := 0.03 }

/-- Fragment shader line 79: `vec2 aspect = vec2(uResolution.x / uResolution.y, 1.0)`. -/
def aspectOf (uResolution : Vec2) : Vec2 := ⟨uResolution.x / uResolution.y, 1⟩

/-- Fragment shader line 83:
`float dist = distance(uv * aspect, mousePos * aspect)`. -/
def distOf (uResolution uMouse uv : Vec2) : ℝ :=
  Vec2.distance (Vec2.mul uv (aspectOf uResolution))
    (Vec2.mul uMouse (aspectOf uResolution))

/-- Fragment shader line 86:
`float lensMask = 1.0 - smoothstep(lensSize * 0.8, lensSize, dist)`. -/
def lensMaskOf (lensSize dist : ℝ) : ℝ :=
  1 - smoothstep (lensSize * 0.8) lensSize dist

/-- Fragment shader lines 89-99: `distortedUv` starts as `uv`; inside the lens
(`dist < lensSize`) the shader computes
`displacement = pow(dist / lensSize, bulge)` (bound but not consumed),
`dir = normalize(uv - mousePos)`, and replaces the coordinate with
`mousePos + dir * (dist * (1.0 - bulge * 0.5))`. -/
def distortedUvOf (lensSize bulge : ℝ) (uMouse uv : Vec2) (dist : ℝ) : Vec2 :=
  if dist < lensSize then
    let displacement := Real.rpow (dist / lensSize) bulge
    let dir := Vec2.normalize (Vec2.sub uv uMouse)
    ⟨uMouse.x + dir.x * (dist * (1 - bulge * 0.5)),
     uMouse.y + dir.y * (dist * (1 - bulge * 0.5))⟩
  else uv

/-- The lens branch of `distortedUvOf` with the dead `displacement` binding
removed; everything else is verbatim the same. -/
def distortedUvNoDisp (lensSize bulge : ℝ) (uMouse uv : Vec2) (dist : ℝ) : Vec2 :=
  if dist < lensSize then
    let dir := Vec2.normalize (Vec2.sub uv uMouse)
    ⟨uMouse.x + dir.x * (dist * (1 - bulge * 0.5)),
     uMouse.y + dir.y * (dist * (1 - bulge * 0.5))⟩
  else uv

/-- Fragment shader line 103:
`float aberration = lensMask * abStr * (dist / lensSize)`. -/
def aberrationOf (lensSize abStr lensMask dist : ℝ) : ℝ :=
  lensMask * abStr * (dist / lensSize)

/-- Fragment shader line 106: the red channel samples at
`distortedUv + vec2(aberration, 0.0)`. -/
def redCoordOf (distortedUv : Vec2) (aberration : ℝ) : Vec2 :=
  ⟨distortedUv.x + aberration, distortedUv.y⟩

/-- Fragment shader line 108: the blue channel samples at
`distortedUv - vec2(aberration, 0.0)`. -/
def blueCoordOf (distortedUv : Vec2) (aberration : ℝ) : Vec2 :=
  ⟨distortedUv.x - aberration, distortedUv.y⟩

/-- The whole fragment `main` of `App.getShader` (`script.js` lines 75-115):
given the texture as a pure sampling function, the compiled-in parameters
`lensSize`, `bulge`, `abStr`, and the uniforms `uMouse`, `uResolution` and the
varying `vUv`, produce the fragment color.  The green channel samples at
`distortedUv`, red and blue at the aberration-offset coordinates, and the
alpha is fixed to `1.0`. -/
def fragMain (tex : Vec2 → Color) (lensSize bulge abStr : ℝ)
    (uMouse uResolution vUv : Vec2) : Color :=
  let uv := vUv
  let dist := distOf uResolution uMouse uv
  let lensMask := lensMaskOf lensSize dist
  let distortedUv := distortedUvOf lensSize bulge uMouse uv dist
  let aberration := aberrationOf lensSize abStr lensMask dist
  { r := (tex (redCoordOf distortedUv aberration)).r
    g := (tex distortedUv).g
    b := (tex (blueCoordOf distortedUv aberration)).b
    a := 1 }

/-- The function `fragMain` with `distortedUvNoDisp` in place of `distortedUvOf`: the
shader with the dead `displacement` computation removed. -/
def fragMainNoDisp (tex : Vec2 → Color) (lensSize bulge abStr : ℝ)
    (uMouse uResolution vUv : Vec2) : Color :=
  let uv := vUv
  let dist := distOf uResolution uMouse uv
  let lensMask := lensMaskOf lensSize dist
  let distortedUv := distortedUvNoDisp lensSize bulge uMouse uv dist
  let aberration := aberrationOf lensSize abStr lensMask dist
  { r := (tex (redCoordOf distortedUv aberration)).r
    g := (tex distortedUv).g
    b := (tex (blueCoordOf distortedUv aberration)).b
    a := 1 }

/-- Division-guarded version of the fragment shader: each division the shader
performs (the aspect ratio `uResolution.x / uResolution.y`, the smoothstep
interpolant `(dist - lensSize*0.8) / (lensSize - lensSize*0.8)`, the two
occurrences of `dist / lensSize`, and the division by `length(uv - mousePos)`
inside `normalize` in the lens branch) is guarded by a zero test of its
divisor, and a zero divisor aborts with `none`. -/
def fragMainChecked (tex : Vec2 → Color) (lensSize bulge abStr : ℝ)
    (uMouse uResolution vUv : Vec2) : Option Color :=
  if uResolution.y = 0 then none else
  if lensSize - lensSize * 0.8 = 0 then none else
  if lensSize = 0 then none else
  let uv := vUv
  let dist := distOf uResolution uMouse uv
  let lensMask := lensMaskOf lensSize dist
  let distortedUvOpt : Option Vec2 :=
    if dist < lensSize then
      if Vec2.length (Vec2.sub uv uMouse) = 0 then none else
      let dir := Vec2.normalize (Vec2.sub uv uMouse)
      some ⟨uMouse.x + dir.x * (dist * (1 - bulge * 0.5)),
            uMouse.y + dir.y * (dist * (1 - bulge * 0.5))⟩
    else some uv
  match distortedUvOpt with
  | none => none
  | some distortedUv =>
    let aberration := aberrationOf lensSize abStr lensMask dist
    some { r := (tex (redCoordOf distortedUv aberration)).r
           g := (tex distortedUv).g
           b := (tex (blueCoordOf distortedUv aberration)).b
           a := 1 }

/-- The uniform set of the `THREE.ShaderMaterial` built in `App.createMesh`
(`script.js` lines 122-132); `tau` is the type of a loaded texture, `uTexture`
is `null` (`none`) until `App.loadTexture` installs one. -/
structure MaterialUniforms (tau : Type) where
  uTexture : Option tau
  uMouse : Vec2
  uResolution : Vec2
  uTime : ℝ

/-- The mutable fields of the `App` class the pointer and frame-loop handlers
touch: `width`, `height`, `mouse`, `targetMouse`, and the material (absent
before `createMesh` runs). -/
structure AppState (tau : Type) where
  width : ℝ
  height : ℝ
  mouse : Vec2
  targetMouse : Vec2
  material : Option (MaterialUniforms tau)

/-- The state effect of one `App.animate` tick (`script.js` lines 218-228):
`this.mouse.lerp(this.targetMouse, 0.1)`; then, guarded by `if (this.material)`,
`uMouse.copy(this.mouse)` and `uTime += 0.01`.  The re-scheduling and the
render call mutate no `App` state. -/
def animate {tau : Type} (s : AppState tau) : AppState tau :=
  let mouse' := Vec2.lerp s.mouse s.targetMouse 0.1
  { s with
    mouse := mouse'
    material :=
      match s.material with
      | none => none
      | some m => some { m with uMouse := mouse', uTime := m.uTime + 0.01 } }

/-- The state effect of `App.onMouseMove` (`script.js` lines 211-216):
`targetMouse.set(clientX / width, 1 - clientY / height)`. -/
def onMouseMove {tau : Type} (s : AppState tau) (clientX clientY : ℝ) :
    AppState tau :=
  { s with targetMouse := ⟨clientX / s.width, 1 - clientY / s.height⟩ }

/-- The single smoothing step applied to the pointer each tick:
`current.lerp(target, 0.1)` with the target held fixed. -/
def mouseStep (target current : Vec2) : Vec2 := Vec2.lerp current target 0.1

/-! Helper lemmas about the GLSL builtins. -/

lemma clamp_of_nonpos {x : ℝ} (h : x ≤ 0) : clamp x 0 1 = 0 := by
  unfold clamp
  rw [max_eq_right h, min_eq_left (by norm_num)]

lemma clamp_of_one_le {x : ℝ} (h : 1 ≤ x) : clamp x 0 1 = 1 := by
  unfold clamp
  rw [max_eq_left (le_trans zero_le_one h), min_eq_right h]

lemma clamp_of_mem {x : ℝ} (h0 : 0 ≤ x) (h1 : x ≤ 1) : clamp x 0 1 = x := by
  unfold clamp
  rw [max_eq_left h0, min_eq_left h1]

lemma smoothstep_of_le {e0 e1 x : ℝ} (he : e0 < e1) (hx : x ≤ e0) :
    smoothstep e0 e1 x = 0 := by
  have hq : (x - e0) / (e1 - e0) ≤ 0 :=
    div_nonpos_of_nonpos_of_nonneg (by linarith) (by linarith)
  simp only [smoothstep, clamp_of_nonpos hq]
  ring

lemma smoothstep_of_ge {e0 e1 x : ℝ} (he : e0 < e1) (hx : e1 ≤ x) :
    smoothstep e0 e1 x = 1 := by
  have hq : 1 ≤ (x - e0) / (e1 - e0) :=
    (one_le_div (by linarith)).mpr (by linarith)
  simp only [smoothstep, clamp_of_one_le hq]
  ring

lemma smoothstep_of_mem {e0 e1 x : ℝ} (he : e0 < e1) (h0 : e0 ≤ x) (h1 : x ≤ e1) :
    smoothstep e0 e1 x =
      ((x - e0) / (e1 - e0)) * ((x - e0) / (e1 - e0)) *
        (3 - 2 * ((x - e0) / (e1 - e0))) := by
  have hq0 : 0 ≤ (x - e0) / (e1 - e0) := div_nonneg (by linarith) (by linarith)
  have hq1 : (x - e0) / (e1 - e0) ≤ 1 := (div_le_one (by linarith)).mpr (by linarith)
  simp only [smoothstep, clamp_of_mem hq0 hq1]

lemma cubic_pos {t : ℝ} (h0 : 0 < t) (h1 : t ≤ 1) : 0 < t * t * (3 - 2 * t) :=
  mul_pos (mul_pos h0 h0) (by linarith)

lemma cubic_lt_one {t : ℝ} (h0 : 0 ≤ t) (h1 : t < 1) : t * t * (3 - 2 * t) < 1 := by
  nlinarith [mul_pos (mul_pos (sub_pos.mpr h1) (sub_pos.mpr h1))
    (show (0:ℝ) < 1 + 2 * t by linarith)]

lemma cubic_strictMono {t1 t2 : ℝ} (h0 : 0 ≤ t1) (h12 : t1 < t2) (h2 : t2 ≤ 1) :
    t1 * t1 * (3 - 2 * t1) < t2 * t2 * (3 - 2 * t2) := by
  nlinarith [mul_pos (sub_pos.mpr h12) (sub_pos.mpr h12),
    mul_nonneg h0 (sub_nonneg.mpr h2),
    mul_pos (sub_pos.mpr (lt_of_le_of_lt h0 h12)) (sub_pos.mpr h12),
    mul_nonneg (mul_nonneg h0 h0) (sub_nonneg.mpr h2)]

/-! Helper lemmas about the lens mask. -/

lemma lensMask_eq_one {ls d : ℝ} (hls : 0 < ls) (hd : d ≤ ls * 0.8) :
    lensMaskOf ls d = 1 := by
  unfold lensMaskOf
  rw [smoothstep_of_le (by linarith) hd]
  ring

lemma lensMask_eq_zero {ls d : ℝ} (hls : 0 < ls) (hd : ls ≤ d) :
    lensMaskOf ls d = 0 := by
  unfold lensMaskOf
  rw [smoothstep_of_ge (by linarith) hd]
  ring

lemma lensMask_mem {ls d : ℝ} (hls : 0 < ls) (h0 : ls * 0.8 < d) (h1 : d < ls) :
    0 < lensMaskOf ls d ∧ lensMaskOf ls d < 1 := by
  have he : ls * 0.8 < ls := by linarith
  have hq0 : 0 < (d - ls * 0.8) / (ls - ls * 0.8) :=
    div_pos (by linarith) (by linarith)
  have hq1 : (d - ls * 0.8) / (ls - ls * 0.8) < 1 :=
    (div_lt_one (by linarith)).mpr (by linarith)
  unfold lensMaskOf
  rw [smoothstep_of_mem he (le_of_lt h0) (le_of_lt h1)]
  constructor
  · have := cubic_lt_one (le_of_lt hq0) hq1
    linarith
  · have := cubic_pos hq0 (le_of_lt hq1)
    linarith

lemma lensMask_strictAnti {ls d1 d2 : ℝ} (hls : 0 < ls) (h1 : ls * 0.8 ≤ d1)
    (h12 : d1 < d2) (h2 : d2 ≤ ls) :
    lensMaskOf ls d2 < lensMaskOf ls d1 := by
  have he : ls * 0.8 < ls := by linarith
  have hq12 : (d1 - ls * 0.8) / (ls - ls * 0.8) < (d2 - ls * 0.8) / (ls - ls * 0.8) :=
    (div_lt_div_iff_of_pos_right (by linarith)).mpr (by linarith)
  have hq10 : 0 ≤ (d1 - ls * 0.8) / (ls - ls * 0.8) :=
    div_nonneg (by linarith) (by linarith)
  have hq21 : (d2 - ls * 0.8) / (ls - ls * 0.8) ≤ 1 :=
    (div_le_one (by linarith)).mpr (by linarith)
  unfold lensMaskOf
  rw [smoothstep_of_mem he h1 (le_trans (le_of_lt h12) h2),
    smoothstep_of_mem he (le_trans h1 (le_of_lt h12)) h2]
  have := cubic_strictMono hq10 hq12 hq21
  linarith

/-! Helper lemmas about vectors and distances. -/

lemma length_sub_eq_zero_iff (a b : Vec2) :
    Vec2.length (Vec2.sub a b) = 0 ↔ a = b := by
  unfold Vec2.length Vec2.sub
  rw [Real.sqrt_eq_zero (by positivity)]
  show (a.x - b.x) ^ 2 + (a.y - b.y) ^ 2 = 0 ↔ a = b
  constructor
  · intro h
    have hx : (a.x - b.x) ^ 2 = 0 := by nlinarith [sq_nonneg (a.x - b.x), sq_nonneg (a.y - b.y)]
    have hy : (a.y - b.y) ^ 2 = 0 := by nlinarith [sq_nonneg (a.x - b.x), sq_nonneg (a.y - b.y)]
    have hx' : a.x = b.x := by nlinarith [sq_nonneg (a.x - b.x)]
    have hy' : a.y = b.y := by nlinarith [sq_nonneg (a.y - b.y)]
    exact Vec2.ext hx' hy'
  · intro h
    rw [h]
    simp

lemma distOf_formula (uResolution uMouse uv : Vec2) :
    distOf uResolution uMouse uv =
      Real.sqrt ((uv.x * (uResolution.x / uResolution.y)
          - uMouse.x * (uResolution.x / uResolution.y)) ^ 2
        + (uv.y - uMouse.y) ^ 2) := by
  unfold distOf Vec2.distance Vec2.length Vec2.sub Vec2.mul aspectOf
  congr 1
  ring

lemma mouseStep_iterate (t c : Vec2) (n : ℕ) :
    (mouseStep t)^[n] c =
      ⟨t.x - (0.9 : ℝ) ^ n * (t.x - c.x), t.y - (0.9 : ℝ) ^ n * (t.y - c.y)⟩ := by
  induction n with
  | zero =>
    ext <;> simp
  | succ n ih =>
    rw [Function.iterate_succ_apply', ih]
    unfold mouseStep Vec2.lerp
    ext <;> simp <;> ring

/-! The claims. -/

/-- C3 counterexample: the claim asserts that after 10 identical smoothing
steps from current = (0,0) toward target = (1,1) the current value is within
1e-3 of the target in each component; in fact the x-component is still
0.9^10 = 0.3486784401 away, so the claim as stated is false. -/
theorem C3_counterexample :
    ¬ |1 - ((mouseStep ⟨1, 1⟩)^[10] ⟨0, 0⟩).x| ≤ 1 / 1000 := by
  rw [mouseStep_iterate]
  simp only
  rw [show |1 - ((1:ℝ) - 0.9 ^ 10 * (1 - 0))| = 0.9 ^ 10 by
    rw [abs_of_nonneg] <;> norm_num]
  norm_num

/-- C3 (amended): the per-tick smoothing update `current += (target-current)*0.1`
reduces the distance to a fixed target by the constant factor 0.9 in each
component on every step (geometric convergence, with exact formula
`target - 0.9^n * (target - start)` after n steps); after one step from
(0,0) toward (1,1) the current value is (0.1,0.1); after 10 identical steps
each component is exactly 0.9^10 ≈ 0.3487 away from the target — within 0.35,
but not within the claimed 1e-3. -/
theorem C3_smoothing (t c : Vec2) (n : ℕ) :
    |t.x - (mouseStep t c).x| = 0.9 * |t.x - c.x| ∧
    |t.y - (mouseStep t c).y| = 0.9 * |t.y - c.y| ∧
    ((mouseStep t)^[n] c).x = t.x - (0.9 : ℝ) ^ n * (t.x - c.x) ∧
    ((mouseStep t)^[n] c).y = t.y - (0.9 : ℝ) ^ n * (t.y - c.y) ∧
    mouseStep ⟨1, 1⟩ ⟨0, 0⟩ = ⟨0.1, 0.1⟩ ∧
    (mouseStep ⟨1, 1⟩)^[10] ⟨0, 0⟩ = ⟨1 - 0.9 ^ 10, 1 - 0.9 ^ 10⟩ ∧
    |1 - ((mouseStep ⟨1, 1⟩)^[10] ⟨0, 0⟩).x| ≤ 0.35 ∧
    |1 - ((mouseStep ⟨1, 1⟩)^[10] ⟨0, 0⟩).y| ≤ 0.35 := by
  refine ⟨?_, ?_, ?_, ?_, ?_, ?_, ?_, ?_⟩
  · unfold mouseStep Vec2.lerp
    rw [show t.x - (c.x + (t.x - c.x) * 0.1) = 0.9 * (t.x - c.x) by ring,
      abs_mul, abs_of_nonneg (by norm_num : (0:ℝ) ≤ 0.9)]
  · unfold mouseStep Vec2.lerp
    rw [show t.y - (c.y + (t.y - c.y) * 0.1) = 0.9 * (t.y - c.y) by ring,
      abs_mul, abs_of_nonneg (by norm_num : (0:ℝ) ≤ 0.9)]
  · rw [mouseStep_iterate]
  · rw [mouseStep_iterate]
  · unfold mouseStep Vec2.lerp
    ext <;> norm_num
  · rw [mouseStep_iterate]
    ext <;> norm_num
  · rw [mouseStep_iterate]
    simp only
    rw [show |1 - ((1:ℝ) - 0.9 ^ 10 * (1 - 0))| = 0.9 ^ 10 by
      rw [abs_of_nonneg] <;> norm_num]
    norm_num
  · rw [mouseStep_iterate]
    simp only
    rw [show |1 - ((1:ℝ) - 0.9 ^ 10 * (1 - 0))| = 0.9 ^ 10 by
      rw [abs_of_nonneg] <;> norm_num]
    norm_num

/-- C4: whenever the aspect-corrected distance is at least `lensSize`, the
distortion is the identity: the sampled coordinate equals the input `uv`
unchanged (`script.js` lines 89-99, the `if (dist < lensSize)` guard). -/
theorem C4_identity_outside (lensSize bulge : ℝ) (uMouse uResolution uv : Vec2)
    (h : lensSize ≤ distOf uResolution uMouse uv) :
    distortedUvOf lensSize bulge uMouse uv (distOf uResolution uMouse uv) = uv := by
  unfold distortedUvOf
  rw [if_neg (not_lt.mpr h)]

/-- C4 witness: at resolution (1,1), mouse (0,0) and uv (1,0) the corrected
distance is 1 ≥ 0.4 = CONFIG.lensSize, and the distortion is the identity. -/
theorem C4_witness :
    distortedUvOf CONFIG.lensSize CONFIG.lensBulge ⟨0, 0⟩ ⟨1, 0⟩
      (distOf ⟨1, 1⟩ ⟨0, 0⟩ ⟨1, 0⟩) = ⟨1, 0⟩ :=
  C4_identity_outside CONFIG.lensSize CONFIG.lensBulge ⟨0, 0⟩ ⟨1, 1⟩ ⟨1, 0⟩
    (by
      rw [distOf_formula]
      simp only
      rw [show ((1:ℝ) * (1 / 1) - 0 * (1 / 1)) ^ 2 + ((0:ℝ) - 0) ^ 2 = 1 by norm_num,
        Real.sqrt_one]
      norm_num [CONFIG])

/-- C7: the distance used by the lens is the Euclidean distance between `uv`
and `mouse` after each point's x-component is scaled by
`resolution.x / resolution.y`; concretely, for resolution (2,1), uv (0.5,0.5)
and mouse (0,0.5) it equals exactly 1, not 0.5. -/
theorem C7_aspect_distance (uResolution uMouse uv : Vec2) :
    distOf uResolution uMouse uv =
      Vec2.distance ⟨uv.x * (uResolution.x / uResolution.y), uv.y⟩
        ⟨uMouse.x * (uResolution.x / uResolution.y), uMouse.y⟩ ∧
    distOf ⟨2, 1⟩ ⟨0, 0.5⟩ ⟨0.5, 0.5⟩ = 1 ∧
    distOf ⟨2, 1⟩ ⟨0, 0.5⟩ ⟨0.5, 0.5⟩ ≠ 0.5 := by
  have heval : distOf ⟨2, 1⟩ ⟨0, 0.5⟩ ⟨0.5, 0.5⟩ = 1 := by
    rw [distOf_formula]
    simp only
    rw [show ((0.5:ℝ) * (2 / 1) - 0 * (2 / 1)) ^ 2 + ((0.5:ℝ) - 0.5) ^ 2 = 1 by norm_num,
      Real.sqrt_one]
  refine ⟨?_, heval, ?_⟩
  · unfold distOf Vec2.distance Vec2.length Vec2.sub Vec2.mul aspectOf
    congr 1
    ring
  · rw [heval]
    norm_num

/-- C8: the pointer handler writes `target = (clientX/width, 1 - clientY/height)`
with no clamping (out-of-range values pass through, as the concrete instance
(250,-100) on a 100x100 viewport shows, yielding (2.5, 2)), and changes no
other field: `current` (the `mouse` field), `width`, `height` and the material
are untouched (`script.js` lines 211-216). -/
theorem C8_onMouseMove (tau : Type) (s : AppState tau) (clientX clientY : ℝ) :
    (onMouseMove s clientX clientY).targetMouse =
      ⟨clientX / s.width, 1 - clientY / s.height⟩ ∧
    (onMouseMove s clientX clientY).mouse = s.mouse ∧
    (onMouseMove s clientX clientY).width = s.width ∧
    (onMouseMove s clientX clientY).height = s.height ∧
    (onMouseMove s clientX clientY).material = s.material ∧
    (onMouseMove (⟨100, 100, ⟨0.5, 0.5⟩, ⟨0.5, 0.5⟩, none⟩ : AppState Unit)
        250 (-100)).targetMouse = ⟨2.5, 2⟩ := by
  refine ⟨rfl, rfl, rfl, rfl, rfl, ?_⟩
  unfold onMouseMove
  ext <;> norm_num

/-- C9: the `displacement = pow(dist/lensSize, bulge)` value bound inside the
lens branch is never consumed: the transform with that binding removed is
extensionally equal, both at the level of the distorted coordinate and of the
whole fragment color, for every input. -/
theorem C9_displacement_dead (tex : Vec2 → Color) (lensSize bulge abStr : ℝ)
    (uMouse uResolution uv : Vec2) (dist : ℝ) :
    distortedUvOf lensSize bulge uMouse uv dist =
      distortedUvNoDisp lensSize bulge uMouse uv dist ∧
    fragMain tex lensSize bulge abStr uMouse uResolution uv =
      fragMainNoDisp tex lensSize bulge abStr uMouse uResolution uv :=
  ⟨rfl, rfl⟩

/-- C5: the lens mask `1 - smoothstep(0.8*lensSize, lensSize, dist)` is exactly
1 for every dist ≤ 0.8*lensSize, exactly 0 for every dist ≥ lensSize, strictly
between 0 and 1 on the open transition band, and strictly decreasing in dist
over the band; for the example lensSize = 0.4: dist 0.32 gives 1, dist 0.4
gives 0, dist 0.36 gives a value strictly in (0,1). -/
theorem C5_lensMask (lensSize : ℝ) (hls : 0 < lensSize) :
    (∀ d, d ≤ lensSize * 0.8 → lensMaskOf lensSize d = 1) ∧
    (∀ d, lensSize ≤ d → lensMaskOf lensSize d = 0) ∧
    (∀ d, lensSize * 0.8 < d → d < lensSize →
      0 < lensMaskOf lensSize d ∧ lensMaskOf lensSize d < 1) ∧
    (∀ d1 d2, lensSize * 0.8 ≤ d1 → d1 < d2 → d2 ≤ lensSize →
      lensMaskOf lensSize d2 < lensMaskOf lensSize d1) ∧
    lensMaskOf 0.4 0.32 = 1 ∧
    lensMaskOf 0.4 0.4 = 0 ∧
    (0 < lensMaskOf 0.4 0.36 ∧ lensMaskOf 0.4 0.36 < 1) :=
  ⟨fun _ hd => lensMask_eq_one hls hd,
   fun _ hd => lensMask_eq_zero hls hd,
   fun _ h0 h1 => lensMask_mem hls h0 h1,
   fun _ _ h1 h12 h2 => lensMask_strictAnti hls h1 h12 h2,
   lensMask_eq_one (by norm_num) (by norm_num),
   lensMask_eq_zero (by norm_num) (by norm_num),
   lensMask_mem (by norm_num) (by norm_num) (by norm_num)⟩

/-- C5 witness: at lensSize 0.4 and dist 0.32 the mask is exactly 1. -/
theorem C5_witness : lensMaskOf 0.4 0.32 = 1 :=
  (C5_lensMask 0.4 (by norm_num)).2.2.2.2.1

/-- C6: the aberration `lensMask * abStr * (dist/lensSize)` is exactly 0 at the
lens center (dist = 0) for any aberration strength, and exactly 0 for every
dist ≥ lensSize, where the mask vanishes. -/
theorem C6_aberration_zero (lensSize abStr : ℝ) :
    aberrationOf lensSize abStr (lensMaskOf lensSize 0) 0 = 0 ∧
    (∀ dist, 0 < lensSize → lensSize ≤ dist →
      aberrationOf lensSize abStr (lensMaskOf lensSize dist) dist = 0) := by
  constructor
  · unfold aberrationOf
    rw [zero_div, mul_zero]
  · intro dist hls hd
    unfold aberrationOf
    rw [lensMask_eq_zero hls hd, zero_mul, zero_mul]

/-- C6 witness: with the configured lensSize 0.4 and strength 0.03, the
aberration vanishes at dist 0 and at dist 0.5 ≥ 0.4. -/
theorem C6_witness :
    aberrationOf 0.4 0.03 (lensMaskOf 0.4 0) 0 = 0 ∧
    aberrationOf 0.4 0.03 (lensMaskOf 0.4 0.5) 0.5 = 0 :=
  ⟨(C6_aberration_zero 0.4 0.03).1,
   (C6_aberration_zero 0.4 0.03).2 0.5 (by norm_num) (by norm_num)⟩

/-- C2 counterexample: the claim says a tick with no Texture leaves the
shader's mouse parameter and time unchanged; but the code guards the push with
`if (this.material)`, not on the texture.  In this concrete state the material
exists while its `uTexture` is `none`, and the tick still changes `uTime`
(from 0 to 0.01), refuting the claim. -/
theorem C2_counterexample :
    ((⟨100, 100, ⟨0, 0⟩, ⟨1, 1⟩,
        some ⟨none, ⟨0.5, 0.5⟩, ⟨100, 100⟩, 0⟩⟩ : AppState Unit).material.map
      MaterialUniforms.uTexture = some none) ∧
    (animate (⟨100, 100, ⟨0, 0⟩, ⟨1, 1⟩,
        some ⟨none, ⟨0.5, 0.5⟩, ⟨100, 100⟩, 0⟩⟩ : AppState Unit)).material.map
      MaterialUniforms.uTime ≠
      ((⟨100, 100, ⟨0, 0⟩, ⟨1, 1⟩,
        some ⟨none, ⟨0.5, 0.5⟩, ⟨100, 100⟩, 0⟩⟩ : AppState Unit)).material.map
      MaterialUniforms.uTime := by
  refine ⟨rfl, ?_⟩
  unfold animate
  simp only [Option.map_some]
  intro h
  have := (Option.some.injEq _ _).mp h
  norm_num at this

/-- C2 (amended): the per-tick parameter push of `App.animate` is guarded on
the material's presence, not on the Texture's: the tick always eases `mouse`
toward `targetMouse` by factor 0.1; when the material is absent nothing else
changes; when the material is present — even with `uTexture` still `none` —
the tick writes the eased mouse into `uMouse` and adds 0.01 to `uTime`, while
`uResolution` and `uTexture` are not touched by the tick. -/
theorem C2_amended (tau : Type) (s : AppState tau) :
    (animate s).mouse = Vec2.lerp s.mouse s.targetMouse 0.1 ∧
    (animate s).width = s.width ∧
    (animate s).height = s.height ∧
    (animate s).targetMouse = s.targetMouse ∧
    (s.material = none → (animate s).material = none) ∧
    (∀ m, s.material = some m →
      (animate s).material =
        some { m with uMouse := Vec2.lerp s.mouse s.targetMouse 0.1,
                      uTime := m.uTime + 0.01 }) := by
  refine ⟨rfl, rfl, rfl, rfl, ?_, ?_⟩
  · intro h
    unfold animate
    rw [h]
  · intro m h
    unfold animate
    rw [h]

/-- C2 witness: a concrete tick on a state whose material is present but whose
texture is absent pushes the eased mouse and the incremented time. -/
theorem C2_witness :
    (animate (⟨100, 100, ⟨0, 0⟩, ⟨1, 1⟩,
        some ⟨none, ⟨0.5, 0.5⟩, ⟨100, 100⟩, 0⟩⟩ : AppState Unit)).material =
      some ⟨none, Vec2.lerp ⟨0, 0⟩ ⟨1, 1⟩ 0.1, ⟨100, 100⟩, 0 + 0.01⟩ :=
  (C2_amended Unit _).2.2.2.2.2 _ rfl

/-- C1: with the configured parameters (lensSize 0.4, bulge 0.5, aberration
strength 0.03) and mouse = uv = (0.5,0.5), the lens transform yields dist = 0,
lensMask = 1, aberration = 0, the distorted coordinate and all three channel
sample coordinates equal (0.5,0.5), and the output is the unmodified texture
color at (0.5,0.5) with alpha 1 — for every texture and every resolution. -/
theorem C1_center_identity (tex : Vec2 → Color) (uResolution : Vec2) :
    distOf uResolution ⟨0.5, 0.5⟩ ⟨0.5, 0.5⟩ = 0 ∧
    lensMaskOf CONFIG.lensSize 0 = 1 ∧
    aberrationOf CONFIG.lensSize CONFIG.aberrationStrength
      (lensMaskOf CONFIG.lensSize 0) 0 = 0 ∧
    distortedUvOf CONFIG.lensSize CONFIG.lensBulge ⟨0.5, 0.5⟩ ⟨0.5, 0.5⟩ 0 =
      ⟨0.5, 0.5⟩ ∧
    redCoordOf ⟨0.5, 0.5⟩ 0 = ⟨0.5, 0.5⟩ ∧
    blueCoordOf ⟨0.5, 0.5⟩ 0 = ⟨0.5, 0.5⟩ ∧
    fragMain tex CONFIG.lensSize CONFIG.lensBulge CONFIG.aberrationStrength
      ⟨0.5, 0.5⟩ uResolution ⟨0.5, 0.5⟩ =
      ⟨(tex ⟨0.5, 0.5⟩).r, (tex ⟨0.5, 0.5⟩).g, (tex ⟨0.5, 0.5⟩).b, 1⟩ := by
  have hls : CONFIG.lensSize = 0.4 := rfl
  have hd : distOf uResolution ⟨0.5, 0.5⟩ ⟨0.5, 0.5⟩ = 0 := by
    rw [distOf_formula]
    simp
  have hmask : lensMaskOf CONFIG.lensSize 0 = 1 :=
    lensMask_eq_one (by rw [hls]; norm_num) (by rw [hls]; norm_num)
  have hab : aberrationOf CONFIG.lensSize CONFIG.aberrationStrength
      (lensMaskOf CONFIG.lensSize 0) 0 = 0 := by
    unfold aberrationOf
    rw [zero_div, mul_zero]
  have hdist : distortedUvOf CONFIG.lensSize CONFIG.lensBulge
      ⟨0.5, 0.5⟩ ⟨0.5, 0.5⟩ 0 = ⟨0.5, 0.5⟩ := by
    unfold distortedUvOf
    rw [if_pos (by rw [hls]; norm_num : (0:ℝ) < CONFIG.lensSize)]
    simp [Vec2.sub, Vec2.normalize, Vec2.length]
  refine ⟨hd, hmask, hab, hdist, by unfold redCoordOf; ext <;> simp,
    by unfold blueCoordOf; ext <;> simp, ?_⟩
  simp only [fragMain]
  rw [hd, hab, hdist]
  simp [redCoordOf, blueCoordOf]

/-- C10: under the preconditions resolution.y ≠ 0, lensSize > 0 and
uv ≠ mouse, the division-guarded embedding of the fragment shader never takes
its error branch and agrees with the unguarded embedding; moreover the
normalize divisor `length(uv - mouse)` is zero exactly when uv = mouse, and
the compiled-in lensSize constant is positive. -/
theorem C10_total (tex : Vec2 → Color) (lensSize bulge abStr : ℝ)
    (uMouse uResolution uv : Vec2)
    (hres : uResolution.y ≠ 0) (hls : 0 < lensSize) (huv : uv ≠ uMouse) :
    fragMainChecked tex lensSize bulge abStr uMouse uResolution uv =
      some (fragMain tex lensSize bulge abStr uMouse uResolution uv) ∧
    (∀ a b : Vec2, Vec2.length (Vec2.sub a b) = 0 ↔ a = b) ∧
    0 < CONFIG.lensSize := by
  refine ⟨?_, length_sub_eq_zero_iff, by norm_num [CONFIG]⟩
  have hdiv : ¬(lensSize - lensSize * 0.8 = 0) := by
    intro h
    nlinarith
  have hlen : ¬(Vec2.length (Vec2.sub uv uMouse) = 0) := by
    rw [length_sub_eq_zero_iff]
    exact huv
  simp only [fragMainChecked, fragMain]
  rw [if_neg hres, if_neg hdiv, if_neg hls.ne']
  by_cases hlt : distOf uResolution uMouse uv < lensSize
  · rw [if_pos hlt, if_neg hlen]
    simp only [distortedUvOf]
    rw [if_pos hlt]
  · rw [if_neg hlt]
    simp only [distortedUvOf]
    rw [if_neg hlt]

/-- C10 witness: at the configured parameters, resolution (2,1), mouse
(0.5,0.5) and uv (0,0), the guarded shader returns `some` of the unguarded
result. -/
theorem C10_witness :
    fragMainChecked (fun _ => ⟨0, 0, 0, 1⟩) CONFIG.lensSize CONFIG.lensBulge
      CONFIG.aberrationStrength ⟨0.5, 0.5⟩ ⟨2, 1⟩ ⟨0, 0⟩ =
      some (fragMain (fun _ => ⟨0, 0, 0, 1⟩) CONFIG.lensSize CONFIG.lensBulge
        CONFIG.aberrationStrength ⟨0.5, 0.5⟩ ⟨2, 1⟩ ⟨0, 0⟩) :=
  (C10_total _ _ _ _ _ _ _ (by norm_num) (by norm_num [CONFIG])
    (by norm_num [Vec2.mk.injEq])).1

end
